import Mathlib

/-!
Shallow embedding of the `jsonToTable` Lightning web component
(`force-app/main/default/lwc/jsonToTable/jsonToTable.js`).

JavaScript values flowing through the component are modelled by `JVal`
(JSON values plus the distinguished `undefined`).  JSON numbers are
modelled as integers; none of the verified properties depend on
fractional numerics.  JavaScript objects are modelled as
insertion-ordered association lists with the update-in-place assignment
semantics of `jsSet`.
-/

/-- JavaScript values as they occur in the component: the JSON data model
extended with `undefined` (the result of reading an absent property). -/
inductive JVal where
  | null : JVal
  | undefined : JVal
  | bool : Bool → JVal
  | num : Int → JVal
  | str : String → JVal
  | arr : List JVal → JVal
  | obj : List (String × JVal) → JVal

/-- JavaScript object/row representation: insertion-ordered key/value list. -/
abbrev Row := List (String × JVal)

/-- JavaScript property read `o[k]` on an association list: first (unique)
matching key, `none` when the property is absent. -/
def jsGet {α : Type} (o : List (String × α)) (k : String) : Option α :=
  (o.find? (fun p => p.1 == k)).map (fun p => p.2)

/-- JavaScript property assignment `o[k] = v`: updates the value in place
when the key already exists (keeping its position), otherwise appends. -/
def jsSet {α : Type} (o : List (String × α)) (k : String) (v : α) :
    List (String × α) :=
  if o.any (fun p => p.1 == k) then
    o.map (fun p => if p.1 == k then (k, v) else p)
  else
    o ++ [(k, v)]

/-- JavaScript truthiness of a value (`if (x)`, `x ? a : b`, `x || y`). -/
def jsTruthy : JVal → Bool
  | .null => false
  | .undefined => false
  | .bool b => b
  | .num n => n != 0
  | .str s => s != ""
  | .arr _ => true
  | .obj _ => true

mutual

/-- JavaScript string coercion as performed by a template literal. -/
def jsToString : JVal → String
  | .null => "null"
  | .undefined => "undefined"
  | .bool b => if b then "true" else "false"
  | .num n => toString n
  | .str s => s
  | .arr es => String.intercalate "," (jsToStringElems es)
  | .obj _ => "[object Object]"

/-- Array elements under string coercion: `null` and `undefined` render empty. -/
def jsToStringElems : List JVal → List String
  | [] => []
  | .null :: es => "" :: jsToStringElems es
  | .undefined :: es => "" :: jsToStringElems es
  | v :: es => jsToString v :: jsToStringElems es

end

/-- JavaScript property read on an arbitrary value: reading from `null` or
`undefined` throws a TypeError (modelled as `Except.error`); reading a key
from a non-object yields `undefined`. -/
def jsGetField : JVal → String → Except String JVal
  | .null, k => .error ("Cannot read properties of null (reading " ++ k ++ ")")
  | .undefined, k => .error ("Cannot read properties of undefined (reading " ++ k ++ ")")
  | .obj f, k => .ok ((jsGet f k).getD .undefined)
  | _, _ => .ok .undefined

/-- Lookup of a key in a decoded JSON object, `undefined` when absent
(shorthand for the successful case of `jsGetField`). -/
def objGet (f : List (String × JVal)) (k : String) : JVal :=
  (jsGet f k).getD .undefined

/-- Whitespace skipping for the JSON decoder. -/
def skipWs : List Char → List Char
  | c :: cs =>
    if c = ' ' ∨ c = '\n' ∨ c = '\t' ∨ c = '\r' then skipWs cs else c :: cs
  | [] => []

/-- Decoding of a single JSON string escape character. -/
def escChar (e : Char) : Option Char :=
  if e = '"' then some '"'
  else if e = '\\' then some '\\'
  else if e = '/' then some '/'
  else if e = 'n' then some '\n'
  else if e = 't' then some '\t'
  else if e = 'r' then some '\r'
  else if e = 'b' then some (Char.ofNat 8)
  else if e = 'f' then some (Char.ofNat 12)
  else none

/-- String-body decoder (after the opening quote), fuel-indexed. -/
def parseStr : Nat → List Char → Option (String × List Char)
  | 0, _ => none
  | _ + 1, [] => none
  | fuel + 1, c :: rest =>
    if c = '"' then some ("", rest)
    else if c = '\\' then
      match rest with
      | [] => none
      | e :: rest2 =>
        match escChar e with
        | none => none
        | some d =>
          match parseStr fuel rest2 with
          | some (s, r) => some (String.mk (d :: s.data), r)
          | none => none
    else
      match parseStr fuel rest with
      | some (s, r) => some (String.mk (c :: s.data), r)
      | none => none

/-- Digit-run accumulator for JSON integer literals. -/
def parseDigitsAux : List Char → Nat → Nat × List Char
  | c :: rest, acc =>
    if c.isDigit then parseDigitsAux rest (acc * 10 + (c.toNat - 48))
    else (acc, c :: rest)
  | [], acc => (acc, [])

/-- Natural-number literal decoder (at least one leading digit). -/
def parseNatLit : List Char → Option (Nat × List Char)
  | c :: rest =>
    if c.isDigit then some (parseDigitsAux rest (c.toNat - 48)) else none
  | [] => none

mutual

/-- Fuel-indexed JSON value decoder (model of the host decoder, restricted
to integer numerics). -/
def parseVal : Nat → List Char → Option (JVal × List Char)
  | 0, _ => none
  | fuel + 1, cs =>
    match skipWs cs with
    | [] => none
    | c :: rest =>
      if c = 'n' then
        match rest with
        | 'u' :: 'l' :: 'l' :: r => some (.null, r)
        | _ => none
      else if c = 't' then
        match rest with
        | 'r' :: 'u' :: 'e' :: r => some (.bool true, r)
        | _ => none
      else if c = 'f' then
        match rest with
        | 'a' :: 'l' :: 's' :: 'e' :: r => some (.bool false, r)
        | _ => none
      else if c = '"' then
        match parseStr fuel rest with
        | some (s, r) => some (.str s, r)
        | none => none
      else if c = '-' then
        match parseNatLit rest with
        | some (n, r) => some (.num (-(n : Int)), r)
        | none => none
      else if c.isDigit then
        match parseNatLit (c :: rest) with
        | some (n, r) => some (.num (n : Int), r)
        | none => none
      else if c = '[' then
        match skipWs rest with
        | ']' :: r => some (.arr [], r)
        | cs2 =>
          match parseElems fuel cs2 with
          | some (es, r) => some (.arr es, r)
          | none => none
      else if c = '{' then
        match skipWs rest with
        | '}' :: r => some (.obj [], r)
        | cs2 =>
          match parseMembers fuel cs2 with
          | some (ms, r) =>
            some (.obj (ms.foldl (fun acc kv => jsSet acc kv.1 kv.2) []), r)
          | none => none
      else none

/-- Comma-separated array elements up to the closing bracket. -/
def parseElems : Nat → List Char → Option (List JVal × List Char)
  | 0, _ => none
  | fuel + 1, cs =>
    match parseVal fuel cs with
    | none => none
    | some (v, r) =>
      match skipWs r with
      | ',' :: r2 =>
        match parseElems fuel r2 with
        | some (vs, r3) => some (v :: vs, r3)
        | none => none
      | ']' :: r2 => some ([v], r2)
      | _ => none

/-- Comma-separated object members up to the closing brace. -/
def parseMembers : Nat → List Char → Option (List (String × JVal) × List Char)
  | 0, _ => none
  | fuel + 1, cs =>
    match skipWs cs with
    | '"' :: r =>
      match parseStr fuel r with
      | none => none
      | some (k, r2) =>
        match skipWs r2 with
        | ':' :: r3 =>
          match parseVal fuel r3 with
          | none => none
          | some (v, r4) =>
            match skipWs r4 with
            | ',' :: r5 =>
              match parseMembers fuel r5 with
              | some (ms, r6) => some ((k, v) :: ms, r6)
              | none => none
            | '}' :: r5 => some ([(k, v)], r5)
            | _ => none
        | _ => none
    | _ => none

end

/-- Model of the host `JSON.parse`: decodes the whole string to a `JVal`,
or fails with a syntax-error message.  Numeric literals are restricted to
integers; string escapes cover the common single-character escapes. -/
def jsonParse (s : String) : Except String JVal :=
  match parseVal (4 * s.length + 8) s.data with
  | some (v, rest) =>
    match skipWs rest with
    | [] => .ok v
    | _ => .error "Unexpected non-whitespace character after JSON data"
  | none => .error "Unexpected token in JSON"


/-- Values occurring inside a `typeAttributes` configuration object:
numbers, strings, or a `{ fieldName: ... }` reference to a row field. -/
inductive AttrVal where
  | num : Int → AttrVal
  | str : String → AttrVal
  | fieldRef : String → AttrVal
deriving DecidableEq

/-- One entry of the component's `columnMapping` configuration. -/
structure ColDef where
  jsonKey : String
  label : String
  type : String
  urlFieldName : Option String := none
  labelFieldName : Option String := none
  typeAttributes : Option (List (String × AttrVal)) := none
deriving DecidableEq

/-- Column object handed to the data table (`cols` element). -/
structure ColumnDescriptor where
  label : String
  fieldName : String
  type : String
  sortable : Bool
  typeAttributes : Option (List (String × AttrVal)) := none
deriving DecidableEq

/-- The component's static `columnMapping` field (commented-out entries of
the source are omitted, exactly as the running code sees it). -/
def columnMapping : List ColDef :=
  [ { jsonKey := "caseIssueName", label := "Case Issue", type := "url",
      urlFieldName := some "Case_Issue_Link_URL",
      labelFieldName := some "Case_Issue_Label" },
    { jsonKey := "citationForm", label := "Citation Form", type := "text" },
    { jsonKey := "factor", label := "Factor", type := "number",
      typeAttributes := some [("minimumIntegerDigits", .num 1),
                              ("maximumFractionDigits", .num 5)] },
    { jsonKey := "caseIssueId", label := "Case Issue Id", type := "hidden" } ]

/-- The `forEach` loop of the row builder: copies each mapping entry's
`jsonKey` value from the source element into the row under the same key.
Reading a property of `null`/`undefined` throws. -/
def copyMappingFields (row : JVal) : List ColDef → Row → Except String Row
  | [], r => .ok r
  | colDef :: rest, r =>
    match jsGetField row colDef.jsonKey with
    | .error e => .error e
    | .ok v => copyMappingFields row rest (jsSet r colDef.jsonKey v)

/-- The `map` callback of `convertJsonToTable`: builds one table row from
the source element at the given 0-based index. -/
def buildRow (row : JVal) (index : Nat) : Except String Row :=
  match jsGetField row "caseIssueId" with
  | .error e => .error e
  | .ok cid0 =>
    match jsGetField row "caseIssueName" with
    | .error e => .error e
    | .ok cname0 =>
      let caseIssueId := if jsTruthy cid0 then cid0 else JVal.null
      let caseIssueName := if jsTruthy cname0 then cname0 else JVal.null
      let newRow : Row := [("id", JVal.num (Int.ofNat (index + 1)))]
      let newRow := jsSet newRow "Case_Issue_Link_URL"
        (if jsTruthy caseIssueId then JVal.str ("/" ++ jsToString caseIssueId)
         else JVal.null)
      let newRow := jsSet newRow "Case_Issue_Label" caseIssueName
      copyMappingFields row columnMapping newRow

/-- `parsedData.map((row, index) => ...)` with exception propagation:
rows are built left to right, the first thrown error aborts the map. -/
def mapRows : List JVal → Nat → Except String (List Row)
  | [], _ => .ok []
  | e :: es, i =>
    match buildRow e i with
    | .error msg => .error msg
    | .ok r =>
      match mapRows es (i + 1) with
      | .error msg => .error msg
      | .ok rs => .ok (r :: rs)

/-- Object-spread merge `{...a, ...b}`: keys of `b` are assigned over `a`
in order, so `b` wins on any key conflict. -/
def spreadMerge (a b : List (String × AttrVal)) : List (String × AttrVal) :=
  b.foldl (fun acc kv => jsSet acc kv.1 kv.2) a

/-- Column-descriptor construction for one mapping entry, including the
`caseIssueName` link special case and the entry-level `typeAttributes`
merge.  An absent `urlFieldName`/`labelFieldName` in the special case
would be the undefined value in JavaScript. -/
def buildColumn (colDef : ColDef) : ColumnDescriptor :=
  let columnDef : ColumnDescriptor :=
    { label := colDef.label, fieldName := colDef.jsonKey,
      type := colDef.type, sortable := true }
  let columnDef :=
    if colDef.jsonKey == "caseIssueName" then
      { columnDef with
        fieldName := colDef.urlFieldName.getD "undefined",
        typeAttributes := some
          [("label", AttrVal.fieldRef (colDef.labelFieldName.getD "undefined")),
           ("target", AttrVal.str "_blank"),
           ("tooltip", AttrVal.str "Open Case Issue Record")] }
    else columnDef
  match colDef.typeAttributes with
  | some ta =>
    { columnDef with
      typeAttributes := some (spreadMerge (columnDef.typeAttributes.getD []) ta) }
  | none => columnDef

/-- Datatable column list: non-`hidden` mapping entries, in mapping order. -/
def buildCols (mapping : List ColDef) : List ColumnDescriptor :=
  (mapping.filter (fun col => !(col.type == "hidden"))).map buildColumn

/-- The decode stage of `convertJsonToTable`: one `JSON.parse`, and a second
one when the first result is itself a string. -/
def jsonDecode (s : String) : Except String JVal :=
  match jsonParse s with
  | .ok (.str s2) => jsonParse s2
  | r => r

/-- The body of the `try` block of `convertJsonToTable`: either the title,
columns and rows, or the message of the thrown/propagated exception. -/
def tryConvert (jsonString : String) :
    Except String (String × List ColumnDescriptor × List Row) :=
  match jsonDecode jsonString with
  | .error e => .error e
  | .ok parsedData =>
    match parsedData with
    | .arr elems =>
      match mapRows elems 0 with
      | .error e => .error e
      | .ok rows =>
        .ok ("Payee Association (" ++ toString elems.length ++ ")",
             buildCols columnMapping, rows)
    | _ => .error "JSON structure is invalid: expected an array of objects."

/-- Tracked state of the `JsonToTable` component. -/
structure ComponentState where
  recordId : Option String
  autoTableData : Option (List Row)
  autoColumns : Option (List ColumnDescriptor)
  autoJsonData : Option String
  autoError : Option String
  isLoading : Bool
  dynamicTitle : String

/-- Component state at construction: only `isLoading` and `dynamicTitle`
carry initializers, every other tracked field starts undefined. -/
def initialState : ComponentState :=
  { recordId := none, autoTableData := none, autoColumns := none,
    autoJsonData := none, autoError := none, isLoading := true,
    dynamicTitle := "Payee Association" }

/-- The `convertJsonToTable` method: on success assigns title, columns and
row data; the `catch` branch records the message and resets title, rows and
columns.  `autoError` is untouched on the success path. -/
def convertJsonToTable (st : ComponentState) (jsonString : String) :
    ComponentState :=
  match tryConvert jsonString with
  | .ok (title, cols, rows) =>
    { st with dynamicTitle := title, autoColumns := some cols,
              autoTableData := some rows }
  | .error msg =>
    { st with autoError := some msg, autoTableData := none,
              autoColumns := none, dynamicTitle := "Payee Association (0)" }

/-- Truthiness of an optional string-valued field (absent or empty is falsy). -/
def jsStrOptTruthy : Option String → Bool
  | some s => s != ""
  | none => false

/-- The `processAutoJson` method: converts only when `autoJsonData` is truthy. -/
def processAutoJson (st : ComponentState) : ComponentState :=
  match st.autoJsonData with
  | some s => if s != "" then convertJsonToTable st s else st
  | none => st

/-- Error envelope body of the record-fetch collaborator. -/
structure FetchErrorBody where
  message : Option String

/-- Error envelope of the record-fetch collaborator. -/
structure FetchError where
  body : Option FetchErrorBody
  message : Option String

/-- Fetched record envelope, reduced to the one consumed field value
`data.fields.Payee_Association_JSON__c.value` (which itself may be null). -/
structure FetchData where
  jsonFieldValue : Option String

/-- The ternary fallback `error.message || 'An unknown error ...'`. -/
def fetchFallbackMessage (e : FetchError) : String :=
  match e.message with
  | some m => if m != "" then m else "An unknown error occurred while fetching record data."
  | none => "An unknown error occurred while fetching record data."

/-- The expression `error.body && error.body.message ? error.body.message
: error.message || 'An unknown error ...'`. -/
def fetchErrorMessage (e : FetchError) : String :=
  match e.body with
  | some b =>
    match b.message with
    | some m => if m != "" then m else fetchFallbackMessage e
    | none => fetchFallbackMessage e
  | none => fetchFallbackMessage e

/-- The `wiredPayeeRecord` handler: waiting state when `recordId` is falsy;
on `data`, clear the error, store the JSON and process it; on `error`,
record the message, drop the JSON and reset the title. -/
def wiredPayeeRecord (st : ComponentState) (error : Option FetchError)
    (data : Option FetchData) : ComponentState :=
  if jsStrOptTruthy st.recordId = false then
    { st with autoError := some "Waiting for record ID...", isLoading := true }
  else
    match data with
    | some d =>
      let st2 := { st with autoError := none, autoJsonData := d.jsonFieldValue }
      let st3 := processAutoJson st2
      { st3 with isLoading := false }
    | none =>
      match error with
      | some e =>
        { st with autoError := some (fetchErrorMessage e), autoJsonData := none,
                  dynamicTitle := "Payee Association (0)", isLoading := false }
      | none => st

theorem findCons_pos {α : Type} (p : α → Bool) (a : α) (l : List α)
    (h : p a = true) : List.find? p (a :: l) = some a := by
  rw [List.find?_cons, h]

theorem findCons_neg {α : Type} (p : α → Bool) (a : α) (l : List α)
    (h : p a = false) : List.find? p (a :: l) = List.find? p l := by
  rw [List.find?_cons, h]

theorem find_map_jsSet_self {α : Type} (o : List (String × α)) (k : String)
    (v : α) (h : o.any (fun p => p.1 == k) = true) :
    (o.map (fun p => if p.1 == k then (k, v) else p)).find? (fun p => p.1 == k)
      = some (k, v) := by
  induction o with
  | nil => simp at h
  | cons p t ih =>
    simp only [List.map_cons]
    by_cases hpk : (p.1 == k) = true
    · rw [if_pos hpk]
      exact findCons_pos _ _ _ (by simp)
    · rw [if_neg hpk, findCons_neg _ _ _ (by simpa using hpk)]
      exact ih (by simpa [List.any_cons, hpk] using h)

theorem find_map_jsSet_ne {α : Type} (o : List (String × α)) (k k2 : String)
    (v : α) (hne : k2 ≠ k) :
    (o.map (fun p => if p.1 == k then (k, v) else p)).find? (fun p => p.1 == k2)
      = o.find? (fun p => p.1 == k2) := by
  induction o with
  | nil => simp
  | cons p t ih =>
    simp only [List.map_cons]
    by_cases hpk : (p.1 == k) = true
    · have hp1 : p.1 = k := by simpa using hpk
      have h1 : ((((k, v) : String × α)).1 == k2) = false := by
        simpa using Ne.symm hne
      have h2 : (p.1 == k2) = false := by simpa [hp1] using Ne.symm hne
      rw [if_pos hpk, findCons_neg (fun q : String × α => q.1 == k2) _ _ h1,
        findCons_neg (fun q : String × α => q.1 == k2) _ _ h2, ih]
    · rw [if_neg hpk]
      by_cases hp2 : (p.1 == k2) = true
      · rw [findCons_pos (fun q : String × α => q.1 == k2) _ _ hp2,
          findCons_pos (fun q : String × α => q.1 == k2) _ _ hp2]
      · rw [findCons_neg (fun q : String × α => q.1 == k2) _ _ (by simpa using hp2),
          findCons_neg (fun q : String × α => q.1 == k2) _ _ (by simpa using hp2), ih]

theorem jsGet_jsSet_self {α : Type} (o : List (String × α)) (k : String)
    (v : α) : jsGet (jsSet o k v) k = some v := by
  unfold jsGet jsSet
  by_cases h : o.any (fun p => p.1 == k) = true
  · rw [if_pos h, find_map_jsSet_self o k v h]
    rfl
  · have hnone : o.find? (fun p => p.1 == k) = none := by
      rw [List.find?_eq_none]
      intro x hx hxk
      exact h (List.any_eq_true.mpr ⟨x, hx, hxk⟩)
    have h1 : (([(k, v)]) : List (String × α)).find? (fun p => p.1 == k)
        = some (k, v) := findCons_pos _ _ _ (by simp)
    rw [if_neg h, List.find?_append, hnone, h1]
    rfl

theorem jsGet_jsSet_ne {α : Type} (o : List (String × α)) (k k2 : String)
    (v : α) (hne : k2 ≠ k) : jsGet (jsSet o k v) k2 = jsGet o k2 := by
  unfold jsGet jsSet
  by_cases h : o.any (fun p => p.1 == k) = true
  · rw [if_pos h, find_map_jsSet_ne o k k2 v hne]
  · have h1 : (([(k, v)]) : List (String × α)).find? (fun p => p.1 == k2)
        = none := by
      rw [findCons_neg _ _ _ (by simpa using Ne.symm hne)]
      rfl
    rw [if_neg h, List.find?_append, h1]
    cases hf : o.find? (fun p => p.1 == k2) <;> simp [hf]

theorem linkUrl_flatten (v : JVal) :
    (if jsTruthy (if jsTruthy v then v else JVal.null)
     then JVal.str ("/" ++ jsToString (if jsTruthy v then v else JVal.null))
     else JVal.null)
    = (if jsTruthy v then JVal.str ("/" ++ jsToString v) else JVal.null) := by
  by_cases h : jsTruthy v = true
  · simp [h]
  · have h2 : jsTruthy v = false := by simpa using h
    simp only [h2, Bool.false_eq_true, if_false]
    rfl

theorem buildRow_obj (f : List (String × JVal)) (i : Nat) :
    buildRow (.obj f) i = .ok
      [("id", JVal.num (Int.ofNat (i + 1))),
       ("Case_Issue_Link_URL",
         if jsTruthy (if jsTruthy (objGet f "caseIssueId")
             then objGet f "caseIssueId" else JVal.null)
         then JVal.str ("/" ++ jsToString (if jsTruthy (objGet f "caseIssueId")
             then objGet f "caseIssueId" else JVal.null))
         else JVal.null),
       ("Case_Issue_Label",
         if jsTruthy (objGet f "caseIssueName")
         then objGet f "caseIssueName" else JVal.null),
       ("caseIssueName", objGet f "caseIssueName"),
       ("citationForm", objGet f "citationForm"),
       ("factor", objGet f "factor"),
       ("caseIssueId", objGet f "caseIssueId")] := rfl

theorem buildRow_obj_fields (f : List (String × JVal)) (i : Nat) :
    ∃ r, buildRow (.obj f) i = .ok r ∧
      jsGet r "id" = some (.num (Int.ofNat (i + 1))) ∧
      jsGet r "Case_Issue_Link_URL" =
        some (if jsTruthy (objGet f "caseIssueId")
              then .str ("/" ++ jsToString (objGet f "caseIssueId"))
              else .null) ∧
      jsGet r "Case_Issue_Label" =
        some (if jsTruthy (objGet f "caseIssueName")
              then objGet f "caseIssueName" else .null) ∧
      jsGet r "caseIssueName" = some (objGet f "caseIssueName") ∧
      jsGet r "citationForm" = some (objGet f "citationForm") ∧
      jsGet r "factor" = some (objGet f "factor") ∧
      jsGet r "caseIssueId" = some (objGet f "caseIssueId") := by
  refine ⟨_, buildRow_obj f i, rfl, ?_, rfl, rfl, rfl, rfl, rfl⟩
  rw [← linkUrl_flatten (objGet f "caseIssueId")]
  rfl

theorem mapRows_obj (elems : List JVal) (i : Nat)
    (h : ∀ e ∈ elems, ∃ f, e = JVal.obj f) :
    ∃ rows, mapRows elems i = .ok rows ∧ rows.length = elems.length ∧
      (∀ j (hj : j < rows.length),
        jsGet (rows.get ⟨j, hj⟩) "id" = some (.num (Int.ofNat (i + j + 1)))) ∧
      List.Forall₂ (fun e r => ∀ f, e = JVal.obj f →
        jsGet r "caseIssueId" = some (objGet f "caseIssueId") ∧
        jsGet r "Case_Issue_Link_URL" =
          some (if jsTruthy (objGet f "caseIssueId")
                then .str ("/" ++ jsToString (objGet f "caseIssueId"))
                else .null) ∧
        jsGet r "Case_Issue_Label" =
          some (if jsTruthy (objGet f "caseIssueName")
                then objGet f "caseIssueName" else .null)) elems rows := by
  induction elems generalizing i with
  | nil =>
    refine ⟨[], rfl, rfl, ?_, List.Forall₂.nil⟩
    intro j hj
    exact absurd hj (by simp)
  | cons e es ih =>
    obtain ⟨f, rfl⟩ := h e (List.mem_cons_self e es)
    obtain ⟨r, hr, hid, hurl, hlabel, _, _, _, hcid⟩ := buildRow_obj_fields f i
    obtain ⟨rows, hrows, hlen, hids, hfa⟩ :=
      ih (i + 1) (fun e2 he2 => h e2 (List.mem_cons_of_mem _ he2))
    refine ⟨r :: rows, ?_, by simp [hlen], ?_, ?_⟩
    · simp only [mapRows, hr, hrows]
    · intro j hj
      cases j with
      | zero => simpa using hid
      | succ j2 =>
        have hj2 : j2 < rows.length := by simpa using hj
        have harith : i + 1 + j2 + 1 = i + (j2 + 1) + 1 := by omega
        have := hids j2 hj2
        rw [harith] at this
        simpa using this
    · refine List.Forall₂.cons ?_ hfa
      intro f2 hf2
      cases hf2
      exact ⟨hcid, hurl, hlabel⟩

theorem jsGet_spreadMerge_not_mem (a b : List (String × AttrVal)) (k : String)
    (h : ∀ kv ∈ b, kv.1 ≠ k) : jsGet (spreadMerge a b) k = jsGet a k := by
  induction b generalizing a with
  | nil => rfl
  | cons kv rest ih =>
    have hstep : spreadMerge a (kv :: rest) = spreadMerge (jsSet a kv.1 kv.2) rest := rfl
    rw [hstep, ih (jsSet a kv.1 kv.2) (fun q hq => h q (List.mem_cons_of_mem _ hq)),
      jsGet_jsSet_ne]
    exact Ne.symm (h kv (List.mem_cons_self kv rest))

theorem jsGet_spreadMerge (a b : List (String × AttrVal)) (k : String)
    (v : AttrVal) (hnd : (b.map Prod.fst).Nodup) (h : jsGet b k = some v) :
    jsGet (spreadMerge a b) k = some v := by
  induction b generalizing a with
  | nil => simp [jsGet] at h
  | cons kv rest ih =>
    have hstep : spreadMerge a (kv :: rest) = spreadMerge (jsSet a kv.1 kv.2) rest := rfl
    rw [List.map_cons, List.nodup_cons] at hnd
    by_cases hk : (kv.1 == k) = true
    · have hk1 : kv.1 = k := by simpa using hk
      have hv : v = kv.2 := by
        unfold jsGet at h
        rw [findCons_pos (fun p : String × AttrVal => p.1 == k) kv rest hk] at h
        simpa using h.symm
      have hrest : ∀ q ∈ rest, q.1 ≠ k := by
        intro q hq hqk
        apply hnd.1
        have hq1 : kv.1 = q.1 := by rw [hk1, ← hqk]
        rw [hq1]
        exact List.mem_map_of_mem Prod.fst hq
      rw [hstep, jsGet_spreadMerge_not_mem _ _ _ hrest, hk1, jsGet_jsSet_self, hv]
    · have h2 : jsGet rest k = some v := by
        unfold jsGet at h ⊢
        rwa [findCons_neg (fun p : String × AttrVal => p.1 == k) kv rest
          (by simpa using hk)] at h
      rw [hstep]
      exact ih (jsSet a kv.1 kv.2) hnd.2 h2

theorem tryConvert_arr (s : String) (elems : List JVal) (rows : List Row)
    (hd : jsonDecode s = .ok (.arr elems)) (hm : mapRows elems 0 = .ok rows) :
    tryConvert s = .ok ("Payee Association (" ++ toString elems.length ++ ")",
      buildCols columnMapping, rows) := by
  simp only [tryConvert, hd, hm]

theorem convertJsonToTable_ok (st : ComponentState) (s : String)
    (title : String) (cols : List ColumnDescriptor) (rows : List Row)
    (h : tryConvert s = .ok (title, cols, rows)) :
    convertJsonToTable st s =
      { st with dynamicTitle := title, autoColumns := some cols,
                autoTableData := some rows } := by
  unfold convertJsonToTable
  rw [h]

theorem convertJsonToTable_error (st : ComponentState) (s : String)
    (msg : String) (h : tryConvert s = .error msg) :
    convertJsonToTable st s =
      { st with autoError := some msg, autoTableData := none,
                autoColumns := none, dynamicTitle := "Payee Association (0)" } := by
  unfold convertJsonToTable
  rw [h]

/-- C1: for every payload that (after at most one extra string decode)
decodes to an array of N objects, the conversion succeeds with exactly N
rows, the row at 0-based index i carries `id = i + 1`, and the title is
"Payee Association (N)". -/
theorem C1_project_counts_ids_title (st : ComponentState) (s : String)
    (elems : List JVal) (hd : jsonDecode s = .ok (.arr elems))
    (hobj : ∀ e ∈ elems, ∃ f, e = JVal.obj f) :
    ∃ rows, (convertJsonToTable st s).autoTableData = some rows ∧
      rows.length = elems.length ∧
      (convertJsonToTable st s).dynamicTitle =
        "Payee Association (" ++ toString elems.length ++ ")" ∧
      ∀ i (hi : i < rows.length),
        jsGet (rows.get ⟨i, hi⟩) "id" = some (.num (Int.ofNat (i + 1))) := by
  obtain ⟨rows, hm, hlen, hids, _⟩ := mapRows_obj elems 0 hobj
  have hc := convertJsonToTable_ok st s _ _ _ (tryConvert_arr s elems rows hd hm)
  refine ⟨rows, by rw [hc], hlen, by rw [hc], ?_⟩
  intro i hi
  simpa using hids i hi

/-- C1 witness: the payload "[\x7b\x7d,\x7b\x7d]" yields two rows with ids 1 and 2 and
title "Payee Association (2)". -/
theorem C1_witness :
    ∃ rows, (convertJsonToTable initialState "[\x7b\x7d,\x7b\x7d]").autoTableData = some rows ∧
      rows.length = 2 ∧
      (convertJsonToTable initialState "[\x7b\x7d,\x7b\x7d]").dynamicTitle =
        "Payee Association (2)" ∧
      ∀ i (hi : i < rows.length),
        jsGet (rows.get ⟨i, hi⟩) "id" = some (.num (Int.ofNat (i + 1))) := by
  have hobj : ∀ e ∈ ([JVal.obj [], JVal.obj []] : List JVal),
      ∃ f, e = JVal.obj f := by
    intro e he
    rcases List.mem_cons.mp he with rfl | he2
    · exact ⟨[], rfl⟩
    rcases List.mem_cons.mp he2 with rfl | he3
    · exact ⟨[], rfl⟩
    · cases he3
  obtain ⟨rows, h1, h2, h3, h4⟩ :=
    C1_project_counts_ids_title initialState "[\x7b\x7d,\x7b\x7d]" [JVal.obj [], JVal.obj []]
      rfl hobj
  exact ⟨rows, h1, by simpa using h2, by rw [h3]; rfl, h4⟩

/-- C2 counterexample: an upstream fetch error sets the message and resets
the title, but — contrary to the claim — it does not clear previously
computed rows and columns: the stale `autoTableData` survives. -/
theorem C2_counterexample :
    wiredPayeeRecord
        { initialState with
          recordId := some "001",
          autoTableData := some [[("id", JVal.num 1)]],
          autoColumns := some [] }
        (some { body := none, message := some "boom" }) none =
      { initialState with
        recordId := some "001",
        autoTableData := some [[("id", JVal.num 1)]],
        autoColumns := some [],
        autoError := some "boom",
        dynamicTitle := "Payee Association (0)",
        isLoading := false } ∧
    (wiredPayeeRecord
        { initialState with
          recordId := some "001",
          autoTableData := some [[("id", JVal.num 1)]],
          autoColumns := some [] }
        (some { body := none, message := some "boom" }) none).autoTableData
      ≠ none := by
  refine ⟨rfl, ?_⟩
  intro h
  exact Option.noConfusion h

/-- C2 as amended: a projection failure (malformed JSON or wrong shape)
stores the string message, resets the title to "Payee Association (0)" and
clears rows and columns; an upstream fetch error stores the string message,
drops the JSON and resets the title, but leaves previously computed rows
and columns in place. -/
theorem C2_amended_failure_handling :
    (∀ st s msg, tryConvert s = .error msg →
      convertJsonToTable st s = { st with
        autoError := some msg,
        autoTableData := none,
        autoColumns := none,
        dynamicTitle := "Payee Association (0)" }) ∧
    (∀ st e, jsStrOptTruthy st.recordId = true →
      wiredPayeeRecord st (some e) none = { st with
        autoError := some (fetchErrorMessage e),
        autoJsonData := none,
        dynamicTitle := "Payee Association (0)",
        isLoading := false }) := by
  constructor
  · intro st s msg h
    exact convertJsonToTable_error st s msg h
  · intro st e hrec
    unfold wiredPayeeRecord
    rw [hrec]
    simp

/-- C2 witness: malformed "\x7bnot json" clears rows/columns and resets the
title; a fetch error with body-less envelope surfaces its message. -/
theorem C2_witness :
    convertJsonToTable initialState "\x7bnot json" = { initialState with
      autoError := some "Unexpected token in JSON",
      autoTableData := none,
      autoColumns := none,
      dynamicTitle := "Payee Association (0)" } ∧
    wiredPayeeRecord { initialState with recordId := some "001" }
        (some { body := none, message := some "boom" }) none =
      { initialState with
        recordId := some "001",
        autoError := some "boom",
        autoJsonData := none,
        dynamicTitle := "Payee Association (0)",
        isLoading := false } := by
  constructor
  · exact C2_amended_failure_handling.1 initialState "\x7bnot json" _ rfl
  · exact C2_amended_failure_handling.2
      { initialState with recordId := some "001" }
      { body := none, message := some "boom" } rfl

/-- C3 counterexample: the syntactically valid payload "[1]" — an array
whose element is a scalar, not an object — is not rejected with the
UnexpectedShape error: conversion succeeds with one all-undefined row. -/
theorem C3_counterexample :
    (convertJsonToTable initialState "[1]").autoError = none ∧
    (convertJsonToTable initialState "[1]").dynamicTitle =
      "Payee Association (1)" ∧
    (convertJsonToTable initialState "[1]").autoTableData =
      some [[("id", JVal.num 1), ("Case_Issue_Link_URL", JVal.null),
             ("Case_Issue_Label", JVal.null), ("caseIssueName", JVal.undefined),
             ("citationForm", JVal.undefined), ("factor", JVal.undefined),
             ("caseIssueId", JVal.undefined)]] :=
  ⟨rfl, rfl, rfl⟩

/-- C3 as amended: the explicit shape check rejects exactly the decoded
values that are not arrays (single objects, scalars), with the fixed
message "JSON structure is invalid: expected an array of objects."; an
array is accepted by this check regardless of its element types. -/
theorem C3_amended_shape_check (st : ComponentState) (s : String) (v : JVal)
    (hd : jsonDecode s = .ok v) (hv : ∀ elems, v ≠ JVal.arr elems) :
    convertJsonToTable st s = { st with
      autoError := some "JSON structure is invalid: expected an array of objects.",
      autoTableData := none, autoColumns := none,
      dynamicTitle := "Payee Association (0)" } := by
  apply convertJsonToTable_error
  simp only [tryConvert, hd]

/-- C3 witness: a syntactically valid JSON object "\x7b\x7d" (not an array)
yields the UnexpectedShape error state. -/
theorem C3_witness :
    convertJsonToTable initialState "\x7b\x7d" = { initialState with
      autoError := some "JSON structure is invalid: expected an array of objects.",
      autoTableData := none, autoColumns := none,
      dynamicTitle := "Payee Association (0)" } :=
  C3_amended_shape_check initialState "\x7b\x7d" (JVal.obj []) rfl
    (fun _ h => JVal.noConfusion h)

/-- C4: in a projected row, a truthy `caseIssueId` yields
`Case_Issue_Link_URL = "/" ++ caseIssueId` (under template-literal string
coercion), and an absent or falsy `caseIssueId` yields null. -/
theorem C4_linkUrl (f : List (String × JVal)) (i : Nat) :
    ∃ r, buildRow (.obj f) i = .ok r ∧
      (jsTruthy (objGet f "caseIssueId") = true →
        jsGet r "Case_Issue_Link_URL" =
          some (.str ("/" ++ jsToString (objGet f "caseIssueId")))) ∧
      (jsTruthy (objGet f "caseIssueId") = false →
        jsGet r "Case_Issue_Link_URL" = some JVal.null) := by
  obtain ⟨r, hr, _, hurl, _, _, _, _, _⟩ := buildRow_obj_fields f i
  refine ⟨r, hr, ?_, ?_⟩
  · intro h
    rw [hurl]
    simp [h]
  · intro h
    rw [hurl]
    simp [h]

/-- C4 witness: `caseIssueId = "a1B"` gives `linkUrl = "/a1B"`, and an
object without `caseIssueId` gives `linkUrl = null`. -/
theorem C4_witness :
    (∃ r, buildRow (.obj [("caseIssueId", JVal.str "a1B")]) 0 = .ok r ∧
      jsGet r "Case_Issue_Link_URL" = some (.str "/a1B")) ∧
    (∃ r, buildRow (.obj []) 0 = .ok r ∧
      jsGet r "Case_Issue_Link_URL" = some JVal.null) := by
  constructor
  · obtain ⟨r, hr, h1, _⟩ := C4_linkUrl [("caseIssueId", JVal.str "a1B")] 0
    exact ⟨r, hr, h1 rfl⟩
  · obtain ⟨r, hr, _, h2⟩ := C4_linkUrl [] 0
    exact ⟨r, hr, h2 rfl⟩

/-- C5 counterexample: for the source record with `caseIssueName` equal to
the empty string, the derived label field is null, not the verbatim empty
string (the raw `caseIssueName` copy, by contrast, is verbatim). -/
theorem C5_counterexample :
    jsGet (((convertJsonToTable initialState
        "[\x7b\"caseIssueName\":\"\"\x7d]").autoTableData.getD []).getD 0 [])
      "Case_Issue_Label" = some JVal.null ∧
    jsGet (((convertJsonToTable initialState
        "[\x7b\"caseIssueName\":\"\"\x7d]").autoTableData.getD []).getD 0 [])
      "caseIssueName" = some (JVal.str "") ∧
    some JVal.null ≠ some (JVal.str "") := by
  refine ⟨rfl, rfl, ?_⟩
  intro h
  exact JVal.noConfusion (Option.some.inj h)

/-- C5 as amended: the derived `Case_Issue_Label` equals the source
`caseIssueName` when that value is truthy, and null otherwise (absent,
empty string, zero, false); the raw `caseIssueName` row field is always
the verbatim source value. -/
theorem C5_amended_linkLabel (f : List (String × JVal)) (i : Nat) :
    ∃ r, buildRow (.obj f) i = .ok r ∧
      jsGet r "Case_Issue_Label" =
        some (if jsTruthy (objGet f "caseIssueName")
              then objGet f "caseIssueName" else JVal.null) ∧
      jsGet r "caseIssueName" = some (objGet f "caseIssueName") := by
  obtain ⟨r, hr, _, _, hlabel, hname, _, _, _⟩ := buildRow_obj_fields f i
  exact ⟨r, hr, hlabel, hname⟩

/-- C5 witness: a truthy `caseIssueName` is copied into the label. -/
theorem C5_witness :
    ∃ r, buildRow (.obj [("caseIssueName", JVal.str "Wage Claim")]) 0 = .ok r ∧
      jsGet r "Case_Issue_Label" = some (JVal.str "Wage Claim") := by
  obtain ⟨r, hr, hlabel, _⟩ :=
    C5_amended_linkLabel [("caseIssueName", JVal.str "Wage Claim")] 0
  exact ⟨r, hr, hlabel⟩

/-- C6: decoding a double-encoded array payload produces exactly the same
component state as decoding the directly encoded payload: if the payload
parses to a string that itself parses to an array, conversion of the outer
payload and conversion of the inner string agree. -/
theorem C6_double_decode (st : ComponentState) (s1 s2 : String)
    (elems : List JVal) (h1 : jsonParse s1 = .ok (.str s2))
    (h2 : jsonParse s2 = .ok (.arr elems)) :
    convertJsonToTable st s1 = convertJsonToTable st s2 := by
  have hd1 : jsonDecode s1 = .ok (.arr elems) := by
    simp only [jsonDecode, h1, h2]
  have hd2 : jsonDecode s2 = .ok (.arr elems) := by
    simp only [jsonDecode, h2]
  unfold convertJsonToTable tryConvert
  rw [hd1, hd2]

/-- C6 witness: the double-encoded payload for `[{"factor":2}]` converts
identically to the directly encoded payload. -/
theorem C6_witness :
    jsonParse "\"[\x7b\\\"factor\\\":2\x7d]\"" = .ok (.str "[\x7b\"factor\":2\x7d]") ∧
    convertJsonToTable initialState "\"[\x7b\\\"factor\\\":2\x7d]\"" =
      convertJsonToTable initialState "[\x7b\"factor\":2\x7d]" := by
  refine ⟨rfl, ?_⟩
  exact C6_double_decode initialState _ _ [JVal.obj [("factor", JVal.num 2)]]
    rfl rfl

/-- C7: a source object that lacks the `jsonKey` of some mapping entry is
still projected successfully, and the corresponding row field holds the
undefined value rather than signalling an error. -/
theorem C7_missing_key (f : List (String × JVal)) (i : Nat) (colDef : ColDef)
    (hmem : colDef ∈ columnMapping) (hmiss : jsGet f colDef.jsonKey = none) :
    ∃ r, buildRow (.obj f) i = .ok r ∧
      jsGet r colDef.jsonKey = some JVal.undefined := by
  obtain ⟨r, hr, _, _, _, hname, hcit, hfac, hcid⟩ := buildRow_obj_fields f i
  refine ⟨r, hr, ?_⟩
  have hundef : objGet f colDef.jsonKey = JVal.undefined := by
    unfold objGet
    rw [hmiss]
    rfl
  simp only [columnMapping, List.mem_cons, List.not_mem_nil, or_false] at hmem
  rcases hmem with rfl | rfl | rfl | rfl
  · exact hname.trans (congrArg some hundef)
  · exact hcit.trans (congrArg some hundef)
  · exact hfac.trans (congrArg some hundef)
  · exact hcid.trans (congrArg some hundef)

/-- C7 witness: an object carrying only `caseIssueId` projects with the
`citationForm` field undefined. -/
theorem C7_witness :
    ∃ r, buildRow (.obj [("caseIssueId", JVal.str "x")]) 0 = .ok r ∧
      jsGet r "citationForm" = some JVal.undefined := by
  obtain ⟨r, hr, h⟩ := C7_missing_key [("caseIssueId", JVal.str "x")] 0
    { jsonKey := "citationForm", label := "Citation Form", type := "text" }
    (by simp [columnMapping]) rfl
  exact ⟨r, hr, h⟩

/-- C8: on a successful projection the column list contains no descriptor
for the hidden `caseIssueId` mapping entry, while every projected row still
carries the `caseIssueId` value copied from its source record. -/
theorem C8_hidden_entry (st : ComponentState) (s : String)
    (elems : List JVal) (hd : jsonDecode s = .ok (.arr elems))
    (hobj : ∀ e ∈ elems, ∃ f, e = JVal.obj f) :
    ∃ cols rows, (convertJsonToTable st s).autoColumns = some cols ∧
      (convertJsonToTable st s).autoTableData = some rows ∧
      (∀ c ∈ cols, c.fieldName ≠ "caseIssueId" ∧ c.label ≠ "Case Issue Id") ∧
      List.Forall₂ (fun e r => ∀ f, e = JVal.obj f →
        jsGet r "caseIssueId" = some (objGet f "caseIssueId")) elems rows := by
  obtain ⟨rows, hm, _, _, hfa⟩ := mapRows_obj elems 0 hobj
  have hc := convertJsonToTable_ok st s _ _ _ (tryConvert_arr s elems rows hd hm)
  refine ⟨buildCols columnMapping, rows, by rw [hc], by rw [hc], ?_, ?_⟩
  · decide
  · exact List.Forall₂.imp (fun a b h f hf => (h f hf).1) hfa

/-- C8 witness: for the payload with one record carrying
`caseIssueId = "a7"`, no column references the hidden key, yet the row
holds the copied `caseIssueId` value. -/
theorem C8_witness :
    ∃ cols rows,
      (convertJsonToTable initialState
        "[\x7b\"caseIssueId\":\"a7\"\x7d]").autoColumns = some cols ∧
      (convertJsonToTable initialState
        "[\x7b\"caseIssueId\":\"a7\"\x7d]").autoTableData = some rows ∧
      (∀ c ∈ cols, c.fieldName ≠ "caseIssueId" ∧ c.label ≠ "Case Issue Id") ∧
      List.Forall₂ (fun e r => ∀ f, e = JVal.obj f →
          jsGet r "caseIssueId" = some (objGet f "caseIssueId"))
        [JVal.obj [("caseIssueId", JVal.str "a7")]] rows := by
  have hobj : ∀ e ∈ ([JVal.obj [("caseIssueId", JVal.str "a7")]] : List JVal),
      ∃ f, e = JVal.obj f := by
    intro e he
    rcases List.mem_cons.mp he with rfl | he2
    · exact ⟨_, rfl⟩
    · cases he2
  exact C8_hidden_entry initialState "[\x7b\"caseIssueId\":\"a7\"\x7d]"
    [JVal.obj [("caseIssueId", JVal.str "a7")]] rfl hobj

/-- C9: the produced column list has one descriptor per non-hidden mapping
entry in mapping order; the link entry's descriptor points at the derived
URL field, its label references the derived label field, and it carries
the new-surface target and tooltip hints; and whenever a mapping entry has
`typeAttributes`, the entry-level options win on any key conflict in the
merged descriptor attributes. -/
theorem C9_column_descriptors :
    buildCols columnMapping =
      [ { label := "Case Issue", fieldName := "Case_Issue_Link_URL",
          type := "url", sortable := true,
          typeAttributes := some
            [("label", AttrVal.fieldRef "Case_Issue_Label"),
             ("target", AttrVal.str "_blank"),
             ("tooltip", AttrVal.str "Open Case Issue Record")] },
        { label := "Citation Form", fieldName := "citationForm",
          type := "text", sortable := true, typeAttributes := none },
        { label := "Factor", fieldName := "factor", type := "number",
          sortable := true,
          typeAttributes := some
            [("minimumIntegerDigits", AttrVal.num 1),
             ("maximumFractionDigits", AttrVal.num 5)] } ] ∧
    ∀ colDef ta k v, colDef.typeAttributes = some ta →
      (ta.map Prod.fst).Nodup → jsGet ta k = some v →
      jsGet ((buildColumn colDef).typeAttributes.getD []) k = some v := by
  refine ⟨rfl, ?_⟩
  intro colDef ta k v hta hnd hk
  unfold buildColumn
  simp only [hta, Option.getD_some]
  exact jsGet_spreadMerge _ ta k v hnd hk

/-- C9 witness: the merged factor-column attributes retain the entry-level
`maximumFractionDigits` value. -/
theorem C9_witness :
    jsGet ((buildColumn
        { jsonKey := "factor",
          label := "Factor",
          type := "number",
          typeAttributes := some
            [("minimumIntegerDigits", AttrVal.num 1),
             ("maximumFractionDigits", AttrVal.num 5)] }).typeAttributes.getD [])
      "maximumFractionDigits" = some (AttrVal.num 5) :=
  C9_column_descriptors.2 _ _ _ _ rfl (by decide) rfl

/-- C10: the conversion is deterministic in the payload — the resulting
title, column list and row list do not depend on any other component
state. -/
theorem C10_deterministic (st1 st2 : ComponentState) (s : String) :
    (convertJsonToTable st1 s).dynamicTitle =
      (convertJsonToTable st2 s).dynamicTitle ∧
    (convertJsonToTable st1 s).autoColumns =
      (convertJsonToTable st2 s).autoColumns ∧
    (convertJsonToTable st1 s).autoTableData =
      (convertJsonToTable st2 s).autoTableData := by
  cases htc : tryConvert s with
  | ok val =>
    rcases val with ⟨title, cols, rows⟩
    unfold convertJsonToTable
    rw [htc]
    exact ⟨rfl, rfl, rfl⟩
  | error msg =>
    unfold convertJsonToTable
    rw [htc]
    exact ⟨rfl, rfl, rfl⟩
